import Mathlib

/-!
# Verification of the Grinex price-scraper server (`src/server.js`)

Shallow embedding of the quote-acquisition pipeline of `src/server.js`:
the `/api/price` request handler (single-flight guard, cache, watchdog
timer, browser-session lifecycle, block detection, and the three-strategy
extraction chain), together with theorems settling the specification
claims about it.

JavaScript numbers are modelled by `JSNum` (NaN, ±Infinity, or an exact
rational); machine floating point rounding is irrelevant to every value
the program compares (prices with at most two significant decimals,
thresholds 0/50/150/5000), so rationals are faithful on the modelled
inputs.  Browser-environment observations (resolved URL, page content,
the `window.gon.ticker.last` field, DOM rows, body text, and which
Playwright calls throw) are inputs to the embedded handler.
-/

namespace GrinexServer

/-- A JavaScript number: NaN, +Infinity, -Infinity, or a finite value
(modelled as an exact rational). -/
inductive JSNum where
  | nan : JSNum
  | posInf : JSNum
  | negInf : JSNum
  | num : ℚ → JSNum
deriving DecidableEq

/-- JS `isNaN(v)` for a number `v`. -/
def jsIsNaN : JSNum → Bool
  | .nan => true
  | _ => false

/-- JS `v <= 0` for a number `v` (false when `v` is NaN). -/
def jsLeZero : JSNum → Bool
  | .nan => false
  | .posInf => false
  | .negInf => true
  | .num q => decide (q ≤ 0)

/-- JS `v > 0` for a number `v` (false when `v` is NaN). -/
def jsGtZero : JSNum → Bool
  | .nan => false
  | .posInf => true
  | .negInf => false
  | .num q => decide (0 < q)

/-- `v` is a finite JS number. -/
def jsFinite : JSNum → Bool
  | .num _ => true
  | _ => false

/-- JS truthiness of `price && price > 0` where `price` is a
number-or-null variable (`none` = `null`): both the `null`, `0` and `NaN`
cases are falsy and `NaN > 0` is false, so the condition holds exactly for
a present value strictly greater than zero. -/
def jsPosOpt : Option JSNum → Bool
  | none => false
  | some v => jsGtZero v

/-! ## Decimal digit strings -/

/-- The decimal digit characters of `n`, most significant first
(JS `String(n)` for a non-negative integer). -/
def natDigits (n : ℕ) : List Char :=
  if _h : n < 10 then [Nat.digitChar n]
  else natDigits (n / 10) ++ [Nat.digitChar (n % 10)]
termination_by n
decreasing_by
  exact Nat.div_lt_self (by omega) (by omega)

/-- Value of a list of decimal digit characters (most significant first). -/
def digitsVal (cs : List Char) : ℕ :=
  cs.foldl (fun a c => 10 * a + (c.toNat - 48)) 0

/-- Two-character zero-padded decimal rendering of `n < 100`
(JS `String(n).padStart(2, '0')`, as used inside `toFixed`/`toISOString`). -/
def pad2 (n : ℕ) : List Char :=
  if n < 10 then '0' :: natDigits n else natDigits n

/-- Three-character zero-padded decimal rendering of `n < 1000`. -/
def pad3 (n : ℕ) : List Char :=
  if n < 10 then '0' :: '0' :: natDigits n
  else if n < 100 then '0' :: natDigits n
  else natDigits n

/-- Four-character zero-padded decimal rendering of `n < 10000`. -/
def pad4 (n : ℕ) : List Char :=
  if n < 10 then '0' :: '0' :: '0' :: natDigits n
  else if n < 100 then '0' :: '0' :: natDigits n
  else if n < 1000 then '0' :: natDigits n
  else natDigits n

/-! ## JS string primitives used by the handler -/

/-- Does `l` start with `pre` (element-wise)? -/
def leadMatch : List Char → List Char → Bool
  | [], _ => true
  | _ :: _, [] => false
  | a :: as, b :: bs => a == b && leadMatch as bs

/-- Index of the first occurrence of `needle` in `hay`
(JS `String.prototype.indexOf`), `none` when absent. -/
def findSubIdx (needle : List Char) : List Char → Option ℕ
  | [] => if needle.isEmpty then some 0 else none
  | c :: t =>
    if leadMatch needle (c :: t) then some 0
    else (findSubIdx needle t).map (· + 1)

/-- JS `hay.includes(needle)`. -/
def strIncludes (hay needle : String) : Bool :=
  (findSubIdx needle.toList hay.toList).isSome

/-- Model of JS `parseFloat` on the string shapes this program encounters:
optional sign, then either the literal `Infinity` or a decimal literal
`digits[.digits]` / `.digits`; a longest valid numeric head is parsed and
trailing characters are ignored, and a string with no valid numeric head
yields NaN.  (Exponent notation and leading whitespace do not occur in the
modelled inputs and are out of scope.) -/
def parseFloat (s : String) : JSNum :=
  let cs := s.toList
  let neg : Bool := cs.head? == some '-'
  let body := if neg || cs.head? == some '+' then cs.tail else cs
  if leadMatch "Infinity".toList body then
    if neg then .negInf else .posInf
  else
    let intp := body.takeWhile Char.isDigit
    let rest := body.dropWhile Char.isDigit
    let fracp :=
      match rest with
      | '.' :: t => t.takeWhile Char.isDigit
      | _ => []
    if intp.isEmpty && fracp.isEmpty then .nan
    else
      let mag : ℚ :=
        (digitsVal intp : ℚ) + (digitsVal fracp : ℚ) / ((10 : ℚ) ^ fracp.length)
      .num (if neg then -mag else mag)

/-- Model of JS `Number.prototype.toFixed(2)` (as in
`parseFloat(price).toFixed(2)` on line 347): non-finite values render as
their names, finite values as a decimal string with exactly two fractional
digits, rounding half away from zero. -/
def toFixed2 : JSNum → String
  | .nan => "NaN"
  | .posInf => "Infinity"
  | .negInf => "-Infinity"
  | .num q =>
    let cents : ℕ := (⌊|q| * 100 + 1 / 2⌋).toNat
    let ds := natDigits (cents / 100) ++ '.' :: pad2 (cents % 100)
    String.mk (if q < 0 then '-' :: ds else ds)

/-- Model of JS `new Date(ms).toISOString()`: UTC calendar fields computed
from the epoch-millisecond timestamp by the standard civil-from-days
algorithm, rendered as `YYYY-MM-DDTHH:mm:ss.sssZ`. -/
def toISOString (ms : ℤ) : String :=
  let days := Int.fdiv ms 86400000
  let msOfDay := (ms - days * 86400000).toNat
  let hh := msOfDay / 3600000
  let mi := msOfDay % 3600000 / 60000
  let ss := msOfDay % 60000 / 1000
  let mmm := msOfDay % 1000
  let z := days + 719468
  let era := Int.fdiv z 146097
  let doe := (z - era * 146097).toNat
  let yoe := (doe - doe / 1460 + doe / 36524 - doe / 146096) / 365
  let doy := doe - (365 * yoe + yoe / 4 - yoe / 100)
  let mp := (5 * doy + 2) / 153
  let dd := doy - (153 * mp + 2) / 5 + 1
  let mo := if mp < 10 then mp + 3 else mp - 9
  let yr := (yoe : ℤ) + era * 400 + (if mo ≤ 2 then 1 else 0)
  String.mk (pad4 yr.toNat ++ '-' :: pad2 mo ++ '-' :: pad2 dd ++
    'T' :: pad2 hh ++ ':' :: pad2 mi ++ ':' :: pad2 ss ++
    '.' :: pad3 mmm ++ ['Z'])

/-! ## The price regular expression `/(\d{2,3}\.\d{1,2})/`

Strategies 2 and 3 search text for the first match of
`/(\d{2,3}\.\d{1,2})/`.  `matchPriceAt` models one anchored match attempt
with JS backtracking (the greedy `{2,3}` tries three digits then two, the
greedy `{1,2}` tries two digits then one); `findPriceMatch` scans
positions left to right and returns the leftmost match. -/

/-- Take exactly `n` leading decimal digits of `cs`, returning them and
the remainder, or `none` if fewer than `n` digits lead `cs`. -/
def takeDigits : ℕ → List Char → Option (List Char × List Char)
  | 0, cs => some ([], cs)
  | _ + 1, [] => none
  | n + 1, c :: cs =>
    if c.isDigit then (takeDigits n cs).map (fun p => (c :: p.1, p.2))
    else none

/-- One attempt to match `\d{k}\.\d{1,2}` at the head of `cs` (fraction
greedy: two digits, else one). -/
def matchIntFrac (k : ℕ) (cs : List Char) : Option (List Char) :=
  match takeDigits k cs with
  | none => none
  | some (ip, rest) =>
    match rest with
    | '.' :: rest2 =>
      match takeDigits 2 rest2 with
      | some (fp, _) => some (ip ++ '.' :: fp)
      | none =>
        match takeDigits 1 rest2 with
        | some (fp, _) => some (ip ++ '.' :: fp)
        | none => none
    | _ => none

/-- One anchored attempt of `/(\d{2,3}\.\d{1,2})/` at the head of `cs`:
three integer digits first, backtracking to two. -/
def matchPriceAt (cs : List Char) : Option (List Char) :=
  match matchIntFrac 3 cs with
  | some m => some m
  | none => matchIntFrac 2 cs

/-- Leftmost match of `/(\d{2,3}\.\d{1,2})/` in `cs`
(JS `text.match(...)` returning the captured group), `none` if no match. -/
def findPriceMatch : List Char → Option String
  | [] => none
  | c :: rest =>
    match matchPriceAt (c :: rest) with
    | some m => some (String.mk m)
    | none => findPriceMatch rest

/-! ## The three extraction strategies (`src/server.js` lines 202-338)

Each strategy is the body of one `page.evaluate` call, translated over the
page observations it reads.  DOM queries are abstracted to their results:
the recent-trades strategy's ancestor walk is modelled by the list of
candidate containers it visits (innermost first), each given as its
row-like elements (`tr, [class*="row"], [class*="trade"]`), each row as
the `trim`med text contents of its cell-like children. -/

/-- Strategy 1 (`window.gon.ticker.last`, lines 209-248): given the value
of `window.gon.ticker.last` when `window.gon`, `.gon.ticker` and a truthy
`.ticker.last` are all present (`none` otherwise — each of those three
absent/falsy cases returns `null` in the source), parse it with
`parseFloat` and return it unless `isNaN(parsed) || parsed <= 0`. -/
def gonEval : Option String → Option JSNum
  | none => none
  | some s =>
    if jsIsNaN (parseFloat s) || jsLeZero (parseFloat s) then none
    else some (parseFloat s)

/-- The cell loop of strategy 2 (lines 284-294): for each cell text in
order, take the first `/(\d{2,3}\.\d{1,2})/` match; if a match exists and
its value lies in `[50, 150]`, return it, otherwise move to the next
cell. -/
def scanCells : List String → Option ℚ
  | [] => none
  | cell :: rest =>
    match findPriceMatch cell.trim.toList with
    | some m =>
      match parseFloat m with
      | .num candidate =>
        if 50 ≤ candidate ∧ candidate ≤ 150 then some candidate
        else scanCells rest
      | _ => scanCells rest
    | none => scanCells rest

/-- One container step of strategy 2 (lines 277-295): if the container
holds more than one row-like element, scan the cells of `rows[1]` (the
first data row, index 0 assumed to be a header); otherwise nothing. -/
def rowScan : List (List String) → Option ℚ
  | _ :: row1 :: _ => scanCells row1
  | _ => none

/-- Strategy 2 (recent-trades table, lines 264-299): walk the ancestor
containers of the «Последние сделки» anchor (innermost first; the empty
list models both "anchor not found" and "no container with more than one
row before reaching body", which the source both answers with `null`),
returning the first in-range cell value found. -/
def tableEval : List (List (List String)) → Option ℚ
  | [] => none
  | c :: rest =>
    match rowScan c with
    | some v => some v
    | none => tableEval rest

/-- Strategy 3 (free-text proximity, lines 314-329): locate «Последние
сделки» in the body text; in the text after it take the first
`/(\d{2,3}\.\d{1,2})/` match and return its value if it lies in
`[50, 150]`; in every other case (label absent, no match, first match out
of range) return `null`. -/
def textEval (bodyText : String) : Option ℚ :=
  match findSubIdx "Последние сделки".toList bodyText.toList with
  | none => none
  | some i =>
    match findPriceMatch
        (bodyText.toList.drop (i + "Последние сделки".toList.length)) with
    | some m =>
      match parseFloat m with
      | .num candidate =>
        if 50 ≤ candidate ∧ candidate ≤ 150 then some candidate
        else none
      | _ => none
    | none => none

/-! ## The extraction chain (lines 202-344) -/

/-- What the three `page.evaluate` calls of the chain observe, plus
whether each call itself throws (a Playwright-level failure, caught by the
per-strategy `try`/`catch`, in which case the assignment to `price` does
not happen). -/
structure ChainEnv where
  gonLast : Option String
  gonThrows : Bool
  containers : List (List (List String))
  tableThrows : Bool
  bodyText : String
  textThrows : Bool
deriving DecidableEq

/-- The method tag set by strategy 1. -/
def methodGon : String := "window.gon.ticker.last"

/-- The method tag set by strategy 2. -/
def methodTable : String := "table (Последние сделки)"

/-- The method tag set by strategy 3. -/
def methodText : String := "text (Последние сделки)"

/-- The chain of lines 202-338: `price` starts `null`; strategy 1 runs,
and its method tag is recorded when `price && price > 0`; strategy 2 runs
only when `!price || price <= 0`, overwriting `price` (unless its
evaluate throws, which leaves `price` as it was), recording its tag when
the result is positive; likewise strategy 3.  Returns the final `price`
and `method` variables. -/
def runChain (e : ChainEnv) : Option JSNum × Option String :=
  let price1 : Option JSNum := if e.gonThrows then none else gonEval e.gonLast
  let method1 : Option String := if jsPosOpt price1 then some methodGon else none
  let price2 : Option JSNum :=
    if !jsPosOpt price1 then
      if e.tableThrows then price1 else (tableEval e.containers).map JSNum.num
    else price1
  let method2 : Option String :=
    if !jsPosOpt price1 then
      if jsPosOpt price2 then some methodTable else method1
    else method1
  let price3 : Option JSNum :=
    if !jsPosOpt price2 then
      if e.textThrows then price2 else (textEval e.bodyText).map JSNum.num
    else price2
  let method3 : Option String :=
    if !jsPosOpt price2 then
      if jsPosOpt price3 then some methodText else method2
    else method2
  (price3, method3)

/-! ## Server state and the `/api/price` handler (lines 54-396) -/

/-- The process-wide mutable state of lines 55-59: the single-flight
guard flag `isProcessing`, the cache (`lastPrice`, `lastPriceTime`), and
whether a watchdog timeout is currently armed (`processingTimeout` is not
`null`). -/
structure ServerState where
  isProcessing : Bool
  lastPrice : Option String
  lastPriceTime : ℤ
  timerArmed : Bool
deriving DecidableEq

/-- The state at process start (lines 55-59). -/
def initState : ServerState :=
  { isProcessing := false, lastPrice := none, lastPriceTime := 0,
    timerArmed := false }

/-- `CACHE_TIME` (line 58): cache staleness threshold, 30 000 ms. -/
def CACHE_TIME : ℤ := 30000

/-- The watchdog deadline (line 88): 90 000 ms. -/
def WATCHDOG_MS : ℤ := 90000

/-- Everything one admitted acquisition observes from its environment:
which Playwright lifecycle calls throw, the two swallowed navigation
outcomes, the resolved URL and content after navigation, the chain's
observations, and whether the two `close()` calls of the `finally` block
throw. -/
structure AcqEnv where
  launchThrows : Bool
  newContextThrows : Bool
  newPageThrows : Bool
  nav1Fails : Bool
  nav2Fails : Bool
  pageUrl : String
  pageContent : String
  chain : ChainEnv
  contextCloseThrows : Bool
  browserCloseThrows : Bool
deriving DecidableEq

/-- One JSON response of the handler.  A field that the source object
literal does not mention is `none` (the key is absent from the JSON). -/
structure Response where
  status : ℕ
  success : Bool
  price : Option String
  updated : Option String
  method : Option String
  cached : Option Bool
  error : Option String
deriving DecidableEq

/-- Observable effects of the `finally` block (lines 370-387): which of
the two `close()` calls were attempted and which of them failed (failures
are caught and only logged). -/
structure ReleaseLog where
  contextCloseTried : Bool
  browserCloseTried : Bool
  contextCloseFailed : Bool
  browserCloseFailed : Bool
deriving DecidableEq

/-- `browser` has been assigned when the `finally` block runs: true
unless the launch itself threw. -/
def browserOpened (env : AcqEnv) : Bool := !env.launchThrows

/-- `context` has been assigned when the `finally` block runs. -/
def contextOpened (env : AcqEnv) : Bool :=
  !env.launchThrows && !env.newContextThrows

/-- The error message of line 149 (URL matched a mitigation redirect). -/
def blockedUrlMsg (url : String) : String :=
  "Страница заблокирована защитой от ботов (редирект): " ++ url

/-- The error message of line 161 (short page with the vendor marker). -/
def blockedContentMsg : String :=
  "Страница заблокирована защитой от ботов (servicepipe.ru)"

/-- The error message of line 343 (extraction exhausted). -/
def noQuoteMsg : String :=
  "Цена не найдена на странице. Не удалось извлечь цену ни одним из способов."

/-- The `try` block of lines 93-359 up to choosing a response: either the
successful price (a positive `JSNum`) with its method tag, or the thrown
error's message.  Lifecycle throws happen before the block checks; both
navigation failures are swallowed (lines 115-138); the URL check of line
148 and the marker-and-short check of line 160 throw before any
extraction; then the chain runs and line 342 throws if it produced no
positive price.  (The messages of lifecycle throws come from Playwright
and are modelled by fixed tags.) -/
def acqBody (env : AcqEnv) : Except String (JSNum × Option String) :=
  if env.launchThrows then .error "playwright launch failed"
  else if env.newContextThrows then .error "newContext failed"
  else if env.newPageThrows then .error "newPage failed"
  else if strIncludes env.pageUrl "exhkqyad" ||
      strIncludes env.pageUrl "servicepipe.ru" then
    .error (blockedUrlMsg env.pageUrl)
  else if strIncludes env.pageContent "servicepipe.ru" &&
      env.pageContent.length < 5000 then
    .error blockedContentMsg
  else
    match runChain env.chain with
    | (some v, method) =>
      if jsGtZero v then .ok (v, method) else .error noQuoteMsg
    | (none, _) => .error noQuoteMsg

/-- The release log of one run of the `finally` block (lines 370-387):
the context close is attempted iff `context` was assigned, and the
browser close is attempted iff `browser` was assigned — the two guarded
independently, so a context-close failure cannot prevent the browser
close; a failed close is caught and logged. -/
def acqLog (env : AcqEnv) : ReleaseLog :=
  { contextCloseTried := contextOpened env
    browserCloseTried := browserOpened env
    contextCloseFailed := contextOpened env && env.contextCloseThrows
    browserCloseFailed := browserOpened env && env.browserCloseThrows }

/-- The release log of a request that was never admitted (the `finally`
block of the acquisition does not run). -/
def emptyLog : ReleaseLog :=
  { contextCloseTried := false, browserCloseTried := false,
    contextCloseFailed := false, browserCloseFailed := false }

/-- The `finally` block of lines 370-395 applied to the post-`try` state:
close the context if assigned (its own failure caught and logged), then
the browser if assigned (likewise), then clear `isProcessing` and the
watchdog timeout. -/
def finallyBlock (st : ServerState) (env : AcqEnv) :
    ServerState × ReleaseLog :=
  ({ st with isProcessing := false, timerArmed := false }, acqLog env)

/-- The `/api/price` handler (lines 62-396).  `now` is `Date.now()` at
arrival (line 65); `nowEnd` is the clock at success time (lines 348 and
354 — two `Date.now()` readings at most a millisecond apart, modelled as
one instant).  Returns the response sent, the state afterwards, and the
release log (empty when the caller was not admitted, since the `finally`
block belongs to the admitted path). -/
def handleRequest (st : ServerState) (now nowEnd : ℤ) (env : AcqEnv) :
    Response × ServerState × ReleaseLog :=
  if st.isProcessing then
    match st.lastPrice with
    | some p =>
      if p ≠ "" ∧ now - st.lastPriceTime < CACHE_TIME then
        ({ status := 200, success := true, price := some p,
           updated := some (toISOString st.lastPriceTime), method := none,
           cached := some true, error := none }, st, emptyLog)
      else
        ({ status := 503, success := false, price := none, updated := none,
           method := none, cached := none,
           error := some "Запрос уже обрабатывается, попробуйте через несколько секунд" },
         st,
         emptyLog)
    | none =>
      ({ status := 503, success := false, price := none, updated := none,
         method := none, cached := none,
         error := some "Запрос уже обрабатывается, попробуйте через несколько секунд" },
       st,
       emptyLog)
  else
    let st1 : ServerState := { st with isProcessing := true, timerArmed := true }
    match acqBody env with
    | .ok (v, method) =>
      let priceStr := toFixed2 v
      let st2 : ServerState :=
        { st1 with lastPrice := some priceStr, lastPriceTime := nowEnd }
      let (st3, log) := finallyBlock st2 env
      ({ status := 200, success := true, price := some priceStr,
         updated := some (toISOString nowEnd),
         method := some (method.getD "unknown"), cached := none,
         error := none }, st3, log)
    | .error msg =>
      let (st3, log) := finallyBlock st1 env
      ({ status := 500, success := false, price := none, updated := none,
         method := none, cached := none, error := some msg }, st3, log)

/-! ## Interleaving model of guard, watchdog and acquisitions

Node's event loop interleaves request arrivals, the watchdog timer
callback (lines 83-88), and the `finally` cleanup of each acquisition
(lines 388-394) at await points.  `SysState` tracks the guard flag, the
pending watchdog fire time (`processingTimeout`; `none` when no timer is
pending), the number of browser acquisitions currently running, and the
cache.  `sysStep` is one atomic event-loop turn. -/

/-- Global state for the interleaving model. -/
structure SysState where
  isProcessing : Bool
  timer : Option ℤ
  inFlight : ℕ
  lastPrice : Option String
  lastPriceTime : ℤ
deriving DecidableEq

/-- The interleaving model's initial state. -/
def sysInit : SysState :=
  { isProcessing := false, timer := none, inFlight := 0,
    lastPrice := none, lastPriceTime := 0 }

/-- One event-loop turn: a request arrives at time `now`; the armed
watchdog fires at its scheduled time `now`; or a running acquisition
reaches its `finally` block at time `now`, having succeeded with
`price` when `success`. -/
inductive SysEvent where
  | arrive (now : ℤ)
  | watchdogFire (now : ℤ)
  | finish (success : Bool) (price : String) (now : ℤ)
deriving DecidableEq

/-- What the subject of an event observes. -/
inductive SysObs where
  | admitted
  | cacheHit (price : String)
  | busy
  | watchdogReset
  | watchdogNoop
  | finished
deriving DecidableEq

/-- One atomic turn of the event loop; `none` when the event is not
enabled in `s` (no timer pending at that instant / nothing in flight).

* `arrive`: lines 62-88 up to the first await — while `isProcessing`, the
  caller gets the fresh-cache hit or the 503 and state is untouched;
  otherwise the guard is set, a 90 s watchdog is armed (overwriting
  `processingTimeout`), and a browser acquisition starts.
* `watchdogFire`: lines 83-88 — the pending timer fires at its deadline;
  if `isProcessing` is still set it is force-cleared, else nothing.
* `finish`: lines 346-348 and 370-394 — an in-flight acquisition ends; on
  success it has just written the cache; the `finally` block clears
  `isProcessing` unconditionally and `clearTimeout`s whatever timer the
  shared `processingTimeout` currently holds. -/
def sysStep (s : SysState) : SysEvent → Option (SysState × SysObs)
  | .arrive now =>
    if s.isProcessing then
      match s.lastPrice with
      | some p =>
        if p ≠ "" ∧ now - s.lastPriceTime < CACHE_TIME then
          some (s, .cacheHit p)
        else some (s, .busy)
      | none => some (s, .busy)
    else
      some ({ s with
                isProcessing := true
                timer := some (now + WATCHDOG_MS)
                inFlight := s.inFlight + 1 }, .admitted)
  | .watchdogFire now =>
    match s.timer with
    | some t =>
      if t = now then
        if s.isProcessing then
          some ({ s with isProcessing := false, timer := none },
                .watchdogReset)
        else some ({ s with timer := none }, .watchdogNoop)
      else none
    | none => none
  | .finish success price now =>
    match s.inFlight with
    | 0 => none
    | n + 1 =>
      let s1 := if success then
          { s with lastPrice := some price, lastPriceTime := now }
        else s
      some ({ s1 with isProcessing := false, timer := none, inFlight := n },
            .finished)

/-- Run a sequence of event-loop turns from `s`; `none` if some event is
not enabled where it occurs. -/
def sysRun (s : SysState) : List SysEvent → Option SysState
  | [] => some s
  | e :: es =>
    match sysStep s e with
    | some (s', _) => sysRun s' es
    | none => none

/-- An event is a watchdog firing. -/
def isWatchdogEvent : SysEvent → Bool
  | .watchdogFire _ => true
  | _ => false

/-- The single-flight invariant of the interleaving model: at most one
acquisition in flight, and the guard flag tracks it exactly. -/
def SysInv (s : SysState) : Prop :=
  s.inFlight ≤ 1 ∧ s.isProcessing = decide (s.inFlight = 1)

/-! ## Specification-side predicates

These formalise phrases of the specification (not source code): what it
means for a string to be a decimal with exactly two fractional digits. -/

/-- `s` is an optionally negated decimal numeral with at least one integer
digit and exactly two fractional digits. -/
def twoDecStr (s : String) : Bool :=
  match s.toList.reverse with
  | d2 :: d1 :: dot :: rest =>
    d2.isDigit && d1.isDigit && (dot == '.') &&
      (match rest with
       | [] => false
       | c :: cs =>
         (c.isDigit || (c == '-' && cs = [])) && cs.all Char.isDigit)
  | _ => false

/-! ## Concrete environments used to instantiate the theorems -/

/-- A chain observation where only `window.gon.ticker.last` has a value. -/
def gonChain : ChainEnv :=
  { gonLast := some "87.45", gonThrows := false, containers := [],
    tableThrows := false, bodyText := "", textThrows := false }

/-- A chain observation where only the free-text body exposes the price. -/
def textChain : ChainEnv :=
  { gonLast := none, gonThrows := false, containers := [],
    tableThrows := false,
    bodyText := "Последние сделки 93.50 1.2", textThrows := false }

/-- A chain observation where only the recent-trades table exposes the
price (header row, then a data row whose first cell is the price). -/
def tableChain : ChainEnv :=
  { gonLast := none, gonThrows := false,
    containers := [[["head"], ["92.10", "1.5"]]], tableThrows := false,
    bodyText := "", textThrows := false }

/-- A chain observation where no strategy finds anything. -/
def emptyChain : ChainEnv :=
  { gonLast := none, gonThrows := false, containers := [],
    tableThrows := false, bodyText := "", textThrows := false }

/-- A healthy acquisition environment around `gonChain`. -/
def okEnv : AcqEnv :=
  { launchThrows := false, newContextThrows := false, newPageThrows := false,
    nav1Fails := false, nav2Fails := false,
    pageUrl := "https://grinex.io/trading/usdta7a5",
    pageContent := "a normal trading page", chain := gonChain,
    contextCloseThrows := false, browserCloseThrows := false }

/-- `okEnv` redirected to a bot-mitigation domain. -/
def blockedEnv : AcqEnv :=
  { okEnv with pageUrl := "https://exhkqyad.servicepipe.ru/check" }

/-- `okEnv` with the price exposed only through the recent-trades table. -/
def tableEnv : AcqEnv :=
  { okEnv with chain := tableChain }

/-- `okEnv` with the price exposed only through the free-text body. -/
def textEnv : AcqEnv :=
  { okEnv with chain := textChain }

/-- `okEnv` with no price exposed at all. -/
def nothingEnv : AcqEnv :=
  { okEnv with chain := emptyChain }

/-- A state in which an acquisition is in flight and the cache holds a
price observed at time 0. -/
def busySt : ServerState :=
  { isProcessing := true, lastPrice := some "87.45", lastPriceTime := 0,
    timerArmed := true }

/-- The 503 busy response of lines 75-78. -/
def busyResponse : Response :=
  { status := 503, success := false, price := none, updated := none,
    method := none, cached := none,
    error := some "Запрос уже обрабатывается, попробуйте через несколько секунд" }

/-- An interleaving-model state with one acquisition in flight and a
cached price observed at time 0. -/
def busySys : SysState :=
  { isProcessing := true, timer := some 90000, inFlight := 1,
    lastPrice := some "87.45", lastPriceTime := 0 }

/-- The interleaving-model state reached by one admitted request that
finishes successfully at time 1000. -/
def doneSys : SysState :=
  { isProcessing := false, timer := none, inFlight := 0,
    lastPrice := some "87.45", lastPriceTime := 1000 }

/-! ## Decimal-rendering lemmas -/

theorem digitChar_isDigit {d : ℕ} (h : d < 10) :
    (Nat.digitChar d).isDigit = true := by
  interval_cases d <;> decide

theorem digitChar_toNat {d : ℕ} (h : d < 10) :
    (Nat.digitChar d).toNat = 48 + d := by
  interval_cases d <;> decide

theorem natDigits_ne_nil (n : ℕ) : natDigits n ≠ [] := by
  rw [natDigits]
  split
  · simp
  · simp

theorem natDigits_all_digit (n : ℕ) :
    (natDigits n).all Char.isDigit = true := by
  induction n using Nat.strong_induction_on with
  | _ n ih =>
    rw [natDigits]
    split
    · rename_i h
      simp [digitChar_isDigit h]
    · rename_i h
      have h10 : n / 10 < n := Nat.div_lt_self (by omega) (by omega)
      simp [List.all_append, ih _ h10,
        digitChar_isDigit (Nat.mod_lt n (by omega))]

theorem digitsVal_append_single (l : List Char) (c : Char) :
    digitsVal (l ++ [c]) = 10 * digitsVal l + (c.toNat - 48) := by
  simp [digitsVal, List.foldl_append]

theorem digitsVal_natDigits (n : ℕ) : digitsVal (natDigits n) = n := by
  induction n using Nat.strong_induction_on with
  | _ n ih =>
    rw [natDigits]
    split
    · rename_i h
      simp [digitsVal, digitChar_toNat h]
    · rename_i h
      have h10 : n / 10 < n := Nat.div_lt_self (by omega) (by omega)
      rw [digitsVal_append_single, ih _ h10,
        digitChar_toNat (Nat.mod_lt n (by omega))]
      omega

theorem natDigits_small {n : ℕ} (h : n < 10) :
    natDigits n = [Nat.digitChar n] := by
  rw [natDigits]
  simp [h]

theorem natDigits_two {n : ℕ} (h1 : 10 ≤ n) (h2 : n < 100) :
    natDigits n = [Nat.digitChar (n / 10), Nat.digitChar (n % 10)] := by
  rw [natDigits]
  have : ¬ n < 10 := by omega
  simp only [this, dite_false]
  rw [natDigits_small (by omega)]
  simp

theorem pad2_shape (n : ℕ) (h : n < 100) :
    ∃ c1 c2, pad2 n = [c1, c2] ∧ c1.isDigit = true ∧ c2.isDigit = true ∧
      10 * (c1.toNat - 48) + (c2.toNat - 48) = n := by
  unfold pad2
  split
  · rename_i h10
    refine ⟨'0', Nat.digitChar n, ?_⟩
    rw [natDigits_small h10]
    simp [digitChar_isDigit h10, digitChar_toNat h10]
  · rename_i h10
    refine ⟨Nat.digitChar (n / 10), Nat.digitChar (n % 10), ?_⟩
    rw [natDigits_two (by omega) h]
    refine ⟨rfl, digitChar_isDigit (by omega),
      digitChar_isDigit (Nat.mod_lt n (by omega)), ?_⟩
    rw [digitChar_toNat (by omega), digitChar_toNat (Nat.mod_lt n (by omega))]
    omega

theorem digit_ne_chars {c : Char} (h : c.isDigit = true) :
    (c == '-') = false ∧ (c == '+') = false ∧ ('I' == c) = false ∧
      (c == '.') = false := by
  refine ⟨?_, ?_, ?_, ?_⟩ <;>
    · rw [beq_eq_false_iff_ne]
      intro hc
      subst hc
      exact absurd h (by decide)

theorem all_takeWhile_self {p : Char → Bool} {l : List Char}
    (h : l.all p = true) : l.takeWhile p = l := by
  induction l with
  | nil => rfl
  | cons c cs ih =>
    simp only [List.all_cons, Bool.and_eq_true] at h
    simp [List.takeWhile_cons, h.1, ih h.2]

theorem takeWhile_append_stop {p : Char → Bool} {l1 l2 : List Char}
    {c : Char} (h1 : l1.all p = true) (hc : p c = false) :
    (l1 ++ c :: l2).takeWhile p = l1 ∧
      (l1 ++ c :: l2).dropWhile p = c :: l2 := by
  induction l1 with
  | nil => simp [List.takeWhile_cons, List.dropWhile_cons, hc]
  | cons a l ih =>
    simp only [List.all_cons, Bool.and_eq_true] at h1
    have h := ih h1.2
    simp [List.takeWhile_cons, List.dropWhile_cons, h1.1, h.1, h.2]

theorem toFixed2_num_eq {q : ℚ} (hq : 0 < q) :
    toFixed2 (.num q) =
      String.mk (natDigits ((⌊q * 100 + 1 / 2⌋).toNat / 100) ++ '.' ::
        pad2 ((⌊q * 100 + 1 / 2⌋).toNat % 100)) := by
  have h1 : ¬ q < 0 := not_lt.mpr hq.le
  simp [toFixed2, abs_of_pos hq, h1]

theorem twoDecStr_digits_pad2 (a b : ℕ) (hb : b < 100) :
    twoDecStr (String.mk (natDigits a ++ '.' :: pad2 b)) = true := by
  obtain ⟨c1, c2, hpad, hd1, hd2, _⟩ := pad2_shape b hb
  obtain ⟨c, t, hcons⟩ := List.exists_cons_of_ne_nil (natDigits_ne_nil a)
  have hall : (natDigits a).all Char.isDigit = true := natDigits_all_digit a
  rw [hcons] at hall
  simp only [List.all_cons, Bool.and_eq_true] at hall
  have hrev : (c :: t).reverse.all Char.isDigit = true := by
    simp [List.all_reverse, List.all_cons, hall.1, hall.2]
  unfold twoDecStr
  rw [hpad, hcons]
  obtain ⟨r, rs, hr⟩ : ∃ r rs, (c :: t).reverse = r :: rs :=
    List.exists_cons_of_ne_nil (by simp)
  rw [hr] at hrev
  simp only [List.all_cons, Bool.and_eq_true] at hrev
  have hr' : t.reverse ++ [c] = r :: rs := by
    rw [← List.reverse_cons]
    exact hr
  simp [String.toList, List.reverse_append, hr', hd1, hd2, hrev.1, hrev.2]

theorem parseFloat_digits_pad2 (a b : ℕ) (hb : b < 100) :
    parseFloat (String.mk (natDigits a ++ '.' :: pad2 b)) =
      .num ((a : ℚ) + (b : ℚ) / 100) := by
  obtain ⟨c1, c2, hpad, hd1, hd2, hval⟩ := pad2_shape b hb
  obtain ⟨c, t, hcons⟩ := List.exists_cons_of_ne_nil (natDigits_ne_nil a)
  have hall : (natDigits a).all Char.isDigit = true := natDigits_all_digit a
  have hcd : c.isDigit = true := by
    rw [hcons] at hall
    exact (Bool.and_eq_true _ _ |>.mp hall).1
  obtain ⟨hminus, hplus, hI, _⟩ := digit_ne_chars hcd
  have hdot : Char.isDigit '.' = false := by decide
  have htd := @takeWhile_append_stop _ _ (pad2 b) '.' hall hdot
  have hhead : (natDigits a ++ '.' :: pad2 b).head? = some c := by
    rw [hcons]
    rfl
  have hbody : (natDigits a ++ '.' :: pad2 b) =
      c :: (t ++ '.' :: pad2 b) := by
    rw [hcons]
    rfl
  have hInf : leadMatch ['I', 'n', 'f', 'i', 'n', 'i', 't', 'y']
      (natDigits a ++ '.' :: pad2 b) = false := by
    rw [hbody]
    simp only [leadMatch]
    simp [hI]
  have hsign1 : ((natDigits a ++ '.' :: pad2 b).head? == some '-') = false := by
    rw [hhead]
    simp [hminus]
  have hsign2 : ((natDigits a ++ '.' :: pad2 b).head? == some '+') = false := by
    rw [hhead]
    simp [hplus]
  have hfrac : (pad2 b).takeWhile Char.isDigit = pad2 b := by
    apply all_takeWhile_self
    rw [hpad]
    simp [hd1, hd2]
  have hne : (natDigits a).isEmpty = false := by
    rw [hcons]
    rfl
  unfold parseFloat
  simp only [String.toList, hsign1, hsign2, Bool.or_self, Bool.false_or,
    Bool.false_eq_true, if_false, hInf, htd.1, htd.2, hfrac, hne,
    Bool.false_and]
  rw [digitsVal_natDigits, hpad]
  have hdv : digitsVal [c1, c2] = b := by
    simp only [digitsVal, List.foldl_cons, List.foldl_nil]
    omega
  rw [hdv]
  norm_num

theorem twoDecStr_toFixed2 {q : ℚ} (hq : 0 < q) :
    twoDecStr (toFixed2 (.num q)) = true := by
  rw [toFixed2_num_eq hq]
  exact twoDecStr_digits_pad2 _ _ (Nat.mod_lt _ (by omega))

theorem parseFloat_toFixed2 {q : ℚ} (hq : 0 < q) :
    parseFloat (toFixed2 (.num q)) =
      .num (((⌊q * 100 + 1 / 2⌋).toNat : ℚ) / 100) := by
  rw [toFixed2_num_eq hq,
    parseFloat_digits_pad2 _ _ (Nat.mod_lt _ (by omega))]
  have h := Nat.div_add_mod (⌊q * 100 + 1 / 2⌋).toNat 100
  have hc : 100 * (((⌊q * 100 + 1 / 2⌋).toNat / 100 : ℕ) : ℚ) +
      (((⌊q * 100 + 1 / 2⌋).toNat % 100 : ℕ) : ℚ) =
      (((⌊q * 100 + 1 / 2⌋).toNat : ℕ) : ℚ) := by
    exact_mod_cast congrArg (Nat.cast (R := ℚ)) h
  congr 1
  linarith

theorem parseFloat_toFixed2_pos {q : ℚ} (hq : 1 / 200 ≤ q) :
    jsGtZero (parseFloat (toFixed2 (.num q))) = true := by
  have hq0 : 0 < q := lt_of_lt_of_le (by norm_num) hq
  rw [parseFloat_toFixed2 hq0]
  have hfl : 1 ≤ ⌊q * 100 + 1 / 2⌋ := by
    rw [Int.le_floor]
    push_cast
    linarith
  have : (1 : ℚ) ≤ ((⌊q * 100 + 1 / 2⌋).toNat : ℚ) := by
    exact_mod_cast Int.toNat_le_toNat hfl
  simp only [jsGtZero, decide_eq_true_eq]
  positivity

theorem toFixed2_ne_empty (v : JSNum) : toFixed2 v ≠ "" := by
  match v with
  | .nan => decide
  | .posInf => decide
  | .negInf => decide
  | .num q =>
    unfold toFixed2
    intro h
    have h2 := congrArg String.toList h
    simp only [String.toList] at h2
    split at h2
    · exact absurd h2 (by simp)
    · exact absurd h2 (by simp [natDigits_ne_nil])

/-! ## Strategy-level lemmas -/

theorem jsGtZero_of_not_nan_le {v : JSNum} (h1 : jsIsNaN v = false)
    (h2 : jsLeZero v = false) : jsGtZero v = true := by
  cases v with
  | nan => simp [jsIsNaN] at h1
  | posInf => rfl
  | negInf => simp [jsLeZero] at h2
  | num q =>
    simp only [jsLeZero, decide_eq_false_iff_not, not_le] at h2
    simp [jsGtZero, h2]

theorem gonEval_pos {g : Option String} {v : JSNum}
    (h : gonEval g = some v) : jsGtZero v = true ∧ jsIsNaN v = false := by
  match g with
  | none => simp [gonEval] at h
  | some s =>
    rw [gonEval] at h
    split at h
    · exact absurd h (by simp)
    · rename_i hcond
      simp only [Bool.or_eq_true, not_or, Bool.not_eq_true] at hcond
      obtain rfl : parseFloat s = v := by simpa using h
      exact ⟨jsGtZero_of_not_nan_le hcond.1 hcond.2, hcond.1⟩

theorem scanCells_range {cells : List String} {v : ℚ}
    (h : scanCells cells = some v) : 50 ≤ v ∧ v ≤ 150 := by
  induction cells with
  | nil => simp [scanCells] at h
  | cons cell rest ih =>
    unfold scanCells at h
    split at h
    · rename_i m hm
      split at h
      · rename_i cand hc
        split at h
        · rename_i hrange
          obtain rfl : cand = v := by simpa using h
          exact hrange
        · exact ih h
      · exact ih h
    · exact ih h

theorem rowScan_range {rows : List (List String)} {v : ℚ}
    (h : rowScan rows = some v) : 50 ≤ v ∧ v ≤ 150 := by
  unfold rowScan at h
  split at h
  · exact scanCells_range h
  · simp at h

theorem tableEval_range {cs : List (List (List String))} {v : ℚ}
    (h : tableEval cs = some v) : 50 ≤ v ∧ v ≤ 150 := by
  induction cs with
  | nil => simp [tableEval] at h
  | cons c rest ih =>
    unfold tableEval at h
    split at h
    · rename_i t ht
      obtain rfl : t = v := by simpa using h
      exact rowScan_range ht
    · exact ih h

theorem textEval_range {body : String} {v : ℚ}
    (h : textEval body = some v) : 50 ≤ v ∧ v ≤ 150 := by
  unfold textEval at h
  split at h
  · simp at h
  · split at h
    · split at h
      · split at h
        · rename_i hrange
          rename_i cand _
          obtain rfl : cand = v := by simpa using h
          exact hrange
        · simp at h
      · simp at h
    · simp at h

/-! ## Chain-level lemmas -/

theorem runChain_gon {e : ChainEnv} {v : JSNum}
    (hthrow : e.gonThrows = false) (hg : gonEval e.gonLast = some v) :
    runChain e = (some v, some methodGon) := by
  have hpos := (gonEval_pos hg).1
  simp [runChain, hthrow, hg, jsPosOpt, hpos]

theorem runChain_table {e : ChainEnv} {t : ℚ}
    (hg : e.gonThrows = true ∨ gonEval e.gonLast = none)
    (hthrow : e.tableThrows = false) (ht : tableEval e.containers = some t) :
    runChain e = (some (.num t), some methodTable) := by
  have hrange := tableEval_range ht
  have hpos : jsGtZero (JSNum.num t) = true := by
    simp only [jsGtZero, decide_eq_true_eq]
    linarith [hrange.1]
  have hnone : (if e.gonThrows then none else gonEval e.gonLast) =
      (none : Option JSNum) := by
    rcases hg with h | h <;> simp [h]
  simp [runChain, hnone, hthrow, ht, jsPosOpt, hpos]

theorem runChain_text {e : ChainEnv} {x : ℚ}
    (hg : e.gonThrows = true ∨ gonEval e.gonLast = none)
    (ht : e.tableThrows = true ∨ tableEval e.containers = none)
    (hthrow : e.textThrows = false) (hx : textEval e.bodyText = some x) :
    runChain e = (some (.num x), some methodText) := by
  have hrange := textEval_range hx
  have hpos : jsGtZero (JSNum.num x) = true := by
    simp only [jsGtZero, decide_eq_true_eq]
    linarith [hrange.1]
  have hnone1 : (if e.gonThrows then none else gonEval e.gonLast) =
      (none : Option JSNum) := by
    rcases hg with h | h <;> simp [h]
  have hnone2 : (if e.tableThrows then (none : Option JSNum)
      else (tableEval e.containers).map JSNum.num) = none := by
    rcases ht with h | h <;> simp [h]
  simp [runChain, hnone1, hnone2, jsPosOpt, hthrow, hx, hpos]

theorem runChain_none {e : ChainEnv}
    (hg : e.gonThrows = true ∨ gonEval e.gonLast = none)
    (ht : e.tableThrows = true ∨ tableEval e.containers = none)
    (hx : e.textThrows = true ∨ textEval e.bodyText = none) :
    runChain e = (none, none) := by
  have hnone1 : (if e.gonThrows then none else gonEval e.gonLast) =
      (none : Option JSNum) := by
    rcases hg with h | h <;> simp [h]
  have hnone2 : (if e.tableThrows then (none : Option JSNum)
      else (tableEval e.containers).map JSNum.num) = none := by
    rcases ht with h | h <;> simp [h]
  have hnone3 : (if e.textThrows then (none : Option JSNum)
      else (textEval e.bodyText).map JSNum.num) = none := by
    rcases hx with h | h <;> simp [h]
  simp [runChain, hnone1, hnone2, hnone3, jsPosOpt]

theorem runChain_inv_after_table {e : ChainEnv} {v : JSNum} {m : String}
    (h : runChain e = (some v, some m))
    (hg : e.gonThrows = true ∨ gonEval e.gonLast = none)
    (ht : e.tableThrows = true ∨ tableEval e.containers = none) :
    m = methodText ∧ ∃ x, v = .num x ∧ textEval e.bodyText = some x := by
  by_cases htx : e.textThrows = true
  · rw [runChain_none hg ht (Or.inl htx)] at h
    exact absurd h (by simp)
  · have htx' : e.textThrows = false := by simpa using htx
    rcases hxe : textEval e.bodyText with _ | x
    · rw [runChain_none hg ht (Or.inr hxe)] at h
      exact absurd h (by simp)
    · rw [runChain_text hg ht htx' hxe] at h
      simp only [Prod.mk.injEq, Option.some.injEq] at h
      obtain ⟨h1, h2⟩ := h
      subst h1
      subst h2
      exact ⟨rfl, x, rfl, rfl⟩

theorem runChain_inv_after_gon {e : ChainEnv} {v : JSNum} {m : String}
    (h : runChain e = (some v, some m))
    (hg : e.gonThrows = true ∨ gonEval e.gonLast = none) :
    (m = methodTable ∧ ∃ t, v = .num t ∧ tableEval e.containers = some t) ∨
    (m = methodText ∧ ∃ x, v = .num x ∧ textEval e.bodyText = some x) := by
  by_cases htt : e.tableThrows = true
  · exact Or.inr (runChain_inv_after_table h hg (Or.inl htt))
  · have htt' : e.tableThrows = false := by simpa using htt
    rcases hte : tableEval e.containers with _ | t
    · exact Or.inr (runChain_inv_after_table h hg (Or.inr hte))
    · rw [runChain_table hg htt' hte] at h
      simp only [Prod.mk.injEq, Option.some.injEq] at h
      obtain ⟨h1, h2⟩ := h
      subst h1
      subst h2
      exact Or.inl ⟨rfl, t, rfl, rfl⟩

theorem runChain_method_inv {e : ChainEnv} {v : JSNum} {m : String}
    (h : runChain e = (some v, some m)) :
    (m = methodGon ∧ e.gonThrows = false ∧ gonEval e.gonLast = some v) ∨
    (m = methodTable ∧ ∃ t, v = .num t ∧ tableEval e.containers = some t) ∨
    (m = methodText ∧ ∃ x, v = .num x ∧ textEval e.bodyText = some x) := by
  by_cases hgt : e.gonThrows = true
  · exact Or.inr (runChain_inv_after_gon h (Or.inl hgt))
  · have hgt' : e.gonThrows = false := by simpa using hgt
    rcases hge : gonEval e.gonLast with _ | v0
    · exact Or.inr (runChain_inv_after_gon h (Or.inr hge))
    · rw [runChain_gon hgt' hge] at h
      simp only [Prod.mk.injEq, Option.some.injEq] at h
      obtain ⟨h1, h2⟩ := h
      subst h1
      subst h2
      exact Or.inl ⟨rfl, hgt', rfl⟩

/-! ## Handler-level lemmas -/

theorem handleRequest_hit {st : ServerState} {now nowEnd : ℤ} {env : AcqEnv}
    {p : String} (hbusy : st.isProcessing = true) (hp : st.lastPrice = some p)
    (hne : p ≠ "") (hfresh : now - st.lastPriceTime < CACHE_TIME) :
    handleRequest st now nowEnd env =
      ({ status := 200, success := true, price := some p,
         updated := some (toISOString st.lastPriceTime), method := none,
         cached := some true, error := none }, st, emptyLog) := by
  unfold handleRequest
  rw [hp]
  simp [hbusy, hne, hfresh]

theorem handleRequest_stale {st : ServerState} {now nowEnd : ℤ}
    {env : AcqEnv} (hbusy : st.isProcessing = true)
    (hstale : st.lastPrice = none ∨
      ∃ p, st.lastPrice = some p ∧ ¬(p ≠ "" ∧ now - st.lastPriceTime < CACHE_TIME)) :
    handleRequest st now nowEnd env =
      ({ status := 503, success := false, price := none, updated := none,
         method := none, cached := none,
         error := some "Запрос уже обрабатывается, попробуйте через несколько секунд" },
       st, emptyLog) := by
  unfold handleRequest
  rcases hstale with h | ⟨p, hp, hcond⟩
  · rw [h]
    simp [hbusy]
  · rw [hp]
    simp [hbusy, hcond]

theorem handleRequest_ok {st : ServerState} {now nowEnd : ℤ} {env : AcqEnv}
    {v : JSNum} {method : Option String} (hidle : st.isProcessing = false)
    (hok : acqBody env = .ok (v, method)) :
    handleRequest st now nowEnd env =
      ({ status := 200, success := true, price := some (toFixed2 v),
         updated := some (toISOString nowEnd),
         method := some (method.getD "unknown"), cached := none,
         error := none },
       { isProcessing := false, lastPrice := some (toFixed2 v),
         lastPriceTime := nowEnd, timerArmed := false },
       acqLog env) := by
  simp [handleRequest, hidle, hok, finallyBlock]

theorem handleRequest_err {st : ServerState} {now nowEnd : ℤ} {env : AcqEnv}
    {msg : String} (hidle : st.isProcessing = false)
    (herr : acqBody env = .error msg) :
    handleRequest st now nowEnd env =
      ({ status := 500, success := false, price := none, updated := none,
         method := none, cached := none, error := some msg },
       { st with isProcessing := false, timerArmed := false },
       acqLog env) := by
  simp [handleRequest, hidle, herr, finallyBlock]

theorem acqBody_ok_inv {env : AcqEnv} {v : JSNum} {method : Option String}
    (h : acqBody env = .ok (v, method)) :
    env.launchThrows = false ∧ env.newContextThrows = false ∧
      env.newPageThrows = false ∧
      strIncludes env.pageUrl "exhkqyad" = false ∧
      strIncludes env.pageUrl "servicepipe.ru" = false ∧
      runChain env.chain = (some v, method) ∧ jsGtZero v = true := by
  unfold acqBody at h
  split_ifs at h with h1 h2 h3 h4 h5
  rcases hr : runChain env.chain with ⟨p, m⟩
  rw [hr] at h
  rcases p with _ | v0
  · simp at h
  · simp only at h
    split_ifs at h with hpos
    simp only [Except.ok.injEq, Prod.mk.injEq] at h
    obtain ⟨hv, hm⟩ := h
    subst hv
    subst hm
    have h4' : strIncludes env.pageUrl "exhkqyad" = false ∧
        strIncludes env.pageUrl "servicepipe.ru" = false := by
      simpa [Bool.or_eq_false_iff] using h4
    exact ⟨by simpa using h1, by simpa using h2, by simpa using h3,
      h4'.1, h4'.2, rfl, hpos⟩

/-! ## Claim C3 -/

/-- C3 (counterexample): the primary strategy does not return `null` for
every field value that parses to a non-finite number.  The field value
`"Infinity"` parses to +Infinity, which passes the
`isNaN(parsed) || parsed <= 0` check of lines 236-243, so the strategy
yields +Infinity — a non-finite value — instead of `null`. -/
theorem gon_accepts_infinity :
    parseFloat "Infinity" = JSNum.posInf ∧
      jsFinite JSNum.posInf = false ∧
      gonEval (some "Infinity") = some JSNum.posInf := by
  refine ⟨by with_unfolding_all rfl, rfl, by with_unfolding_all rfl⟩

/-- C3 (amended): the primary strategy accepts exactly the parses that
are neither NaN nor ≤ 0 — every accepted value is positive (but not
necessarily finite: +Infinity is accepted), every field value parsing to
NaN, zero or a negative number yields `null`, and an absent or falsy
field yields `null`. -/
theorem gon_validation :
    (∀ (s : String) (v : JSNum), gonEval (some s) = some v →
        jsIsNaN v = false ∧ jsGtZero v = true ∧ v = parseFloat s) ∧
    (∀ s : String,
        jsIsNaN (parseFloat s) = true ∨ jsLeZero (parseFloat s) = true →
        gonEval (some s) = none) ∧
    gonEval none = none := by
  refine ⟨?_, ?_, rfl⟩
  · intro s v h
    obtain ⟨h1, h2⟩ := gonEval_pos h
    rw [gonEval] at h
    split at h
    · exact absurd h (by simp)
    · exact ⟨h2, h1, by simpa using h.symm⟩
  · intro s h
    rw [gonEval]
    rcases h with h | h <;> simp [h]

/-- C3 (witness for the amended theorem): instantiation at the field
value `"87.45"`. -/
theorem gon_validation_witness :
    gonEval (some "87.45") = some (JSNum.num (8745 / 100)) ∧
      (jsIsNaN (JSNum.num (8745 / 100)) = false ∧
        jsGtZero (JSNum.num (8745 / 100)) = true ∧
        JSNum.num (8745 / 100) = parseFloat "87.45") :=
  ⟨by with_unfolding_all rfl,
   gon_validation.1 "87.45" (JSNum.num (8745 / 100))
     (by with_unfolding_all rfl)⟩

/-! ## Claim C10 -/

/-- C10: whenever a fresh acquisition succeeds with the method tag of the
secondary (recent-trades table) or tertiary (free-text) strategy, the
price is the rendering of a numeric value in the inclusive band
`[50, 150]`; the primary strategy imposes no such bound and accepts any
parse that is strictly positive (and not NaN). -/
theorem band_limited_to_fallback_strategies :
    (∀ (st : ServerState) (now nowEnd : ℤ) (env : AcqEnv),
      st.isProcessing = false →
      ((handleRequest st now nowEnd env).1.method = some methodTable ∨
        (handleRequest st now nowEnd env).1.method = some methodText) →
      ∃ q : ℚ, 50 ≤ q ∧ q ≤ 150 ∧
        (handleRequest st now nowEnd env).1.price =
          some (toFixed2 (.num q))) ∧
    (∀ (s : String) (q : ℚ), parseFloat s = .num q → 0 < q →
        gonEval (some s) = some (.num q)) := by
  constructor
  · intro st now nowEnd env hidle hm
    rcases hacq : acqBody env with msg | ⟨v, method⟩
    · rw [handleRequest_err hidle hacq] at hm
      rcases hm with hm | hm <;> exact absurd hm (by simp)
    · rw [handleRequest_ok hidle hacq] at hm ⊢
      have hinv := acqBody_ok_inv hacq
      have hchain := hinv.2.2.2.2.2.1
      rcases method with _ | mm
      · rcases hm with hm | hm <;>
          · simp only [Option.getD_none, Option.some.injEq] at hm
            exact absurd hm (by decide)
      · simp only [Option.getD_some, Option.some.injEq] at hm
        rcases runChain_method_inv hchain with
          ⟨hm1, _, _⟩ | ⟨hm1, t, hv, hte⟩ | ⟨hm1, x, hv, hxe⟩
        · rcases hm with hm | hm <;> (rw [hm] at hm1; exact absurd hm1 (by decide))
        · obtain ⟨hr1, hr2⟩ := tableEval_range hte
          subst hv
          exact ⟨t, hr1, hr2, by simp⟩
        · obtain ⟨hr1, hr2⟩ := textEval_range hxe
          subst hv
          exact ⟨x, hr1, hr2, by simp⟩
  · intro s q hp hq
    rw [gonEval, hp]
    have h2 : ¬ q ≤ 0 := not_le.mpr hq
    simp [jsIsNaN, jsLeZero, h2]

/-- C10 (witness): a table-only page yields the secondary tag with the
in-band price 92.10, and the primary strategy accepts the out-of-band
value 1000. -/
theorem band_limited_witness :
    initState.isProcessing = false ∧
    (handleRequest initState 0 1000 tableEnv).1.method = some methodTable ∧
    (∃ q : ℚ, 50 ≤ q ∧ q ≤ 150 ∧
      (handleRequest initState 0 1000 tableEnv).1.price =
        some (toFixed2 (.num q))) ∧
    parseFloat "1000" = JSNum.num 1000 ∧ (0 : ℚ) < 1000 ∧
    gonEval (some "1000") = some (.num 1000) := by
  have hacq : acqBody tableEnv = .ok (JSNum.num (921 / 10), some methodTable) := by
    with_unfolding_all rfl
  refine ⟨rfl, ?_, ?_, by with_unfolding_all rfl, by norm_num, ?_⟩
  · rw [handleRequest_ok rfl hacq]
    rfl
  · refine band_limited_to_fallback_strategies.1 initState 0 1000 tableEnv rfl
      (Or.inl ?_)
    rw [handleRequest_ok rfl hacq]
    rfl
  · exact band_limited_to_fallback_strategies.2 "1000" 1000
      (by with_unfolding_all rfl) (by norm_num)

theorem handleRequest_busy_state {st : ServerState} {now nowEnd : ℤ}
    {env : AcqEnv} (hbusy : st.isProcessing = true) :
    (handleRequest st now nowEnd env).2.1 = st := by
  rcases hp : st.lastPrice with _ | p
  · rw [handleRequest_stale hbusy (Or.inl hp)]
  · by_cases hc : p ≠ "" ∧ now - st.lastPriceTime < CACHE_TIME
    · rw [handleRequest_hit hbusy hp hc.1 hc.2]
    · rw [handleRequest_stale hbusy (Or.inr ⟨p, hp, hc⟩)]

/-! ## Claim C4 -/

/-- C4: a caller arriving while an acquisition is in flight receives the
cached quote (marked `cached = true`) exactly when the cache holds an
entry whose age is strictly below the 30-second staleness threshold; with
an empty cache, or an entry at or beyond the threshold, it receives the
retryable 503 busy failure — never a stale quote — and in every such case
the server state is left untouched. -/
theorem busy_cache_freshness :
    ∀ (st : ServerState) (now nowEnd : ℤ) (env : AcqEnv),
      st.isProcessing = true →
      (∀ p, st.lastPrice = some p → p ≠ "" →
        now - st.lastPriceTime < 30000 →
        (handleRequest st now nowEnd env).1 =
          { status := 200, success := true, price := some p,
            updated := some (toISOString st.lastPriceTime), method := none,
            cached := some true, error := none }) ∧
      (st.lastPrice = none →
        (handleRequest st now nowEnd env).1 = busyResponse) ∧
      (∀ p, st.lastPrice = some p → 30000 ≤ now - st.lastPriceTime →
        (handleRequest st now nowEnd env).1 = busyResponse) ∧
      (handleRequest st now nowEnd env).2.1 = st := by
  intro st now nowEnd env hbusy
  refine ⟨?_, ?_, ?_, ?_⟩
  · intro p hp hne hfresh
    rw [handleRequest_hit hbusy hp hne hfresh]
  · intro hp
    rw [handleRequest_stale hbusy (Or.inl hp)]
    rfl
  · intro p hp hstale
    rw [handleRequest_stale hbusy (Or.inr ⟨p, hp, ?_⟩)]
    · rfl
    · intro hc
      have := hc.2
      simp only [CACHE_TIME] at this
      omega
  · exact handleRequest_busy_state hbusy

/-- C4 (witness): instantiation at an in-flight state whose cache entry
is 5 seconds old (cache hit), the same state with an empty cache (503),
and the same state with a 30-second-old entry (503). -/
theorem busy_cache_freshness_witness :
    busySt.isProcessing = true ∧
    busySt.lastPrice = some "87.45" ∧ "87.45" ≠ "" ∧
    (5000 : ℤ) - busySt.lastPriceTime < 30000 ∧
    (handleRequest busySt 5000 6000 okEnv).1 =
      { status := 200, success := true, price := some "87.45",
        updated := some (toISOString busySt.lastPriceTime), method := none,
        cached := some true, error := none } ∧
    ({ busySt with lastPrice := none } : ServerState).lastPrice = none ∧
    (handleRequest { busySt with lastPrice := none } 5000 6000 okEnv).1 =
      busyResponse ∧
    (30000 : ℤ) ≤ 30000 - busySt.lastPriceTime ∧
    (handleRequest busySt 30000 31000 okEnv).1 = busyResponse := by
  refine ⟨rfl, rfl, by decide, by decide, ?_, rfl, ?_, by decide, ?_⟩
  · exact (busy_cache_freshness busySt 5000 6000 okEnv rfl).1 "87.45" rfl
      (by decide) (by decide)
  · exact (busy_cache_freshness { busySt with lastPrice := none } 5000 6000
      okEnv rfl).2.1 rfl
  · exact (busy_cache_freshness busySt 30000 31000 okEnv rfl).2.2.1 "87.45"
      rfl (by decide)

/-! ## Claim C7 -/

/-- C7: on every path that does not return a fresh success — the busy
branch, a lifecycle throw, a blocked page, extraction exhaustion — the
cache (`lastPrice` and `lastPriceTime`) is exactly what it was before the
request; conversely, whenever the cache changes, the request returned the
fresh-acquisition 200 success (`cached` key absent). -/
theorem cache_unchanged_unless_success :
    ∀ (st : ServerState) (now nowEnd : ℤ) (env : AcqEnv),
      ((handleRequest st now nowEnd env).1.success = false →
        (handleRequest st now nowEnd env).2.1.lastPrice = st.lastPrice ∧
        (handleRequest st now nowEnd env).2.1.lastPriceTime =
          st.lastPriceTime) ∧
      (((handleRequest st now nowEnd env).2.1.lastPrice ≠ st.lastPrice ∨
        (handleRequest st now nowEnd env).2.1.lastPriceTime ≠
          st.lastPriceTime) →
        (handleRequest st now nowEnd env).1.status = 200 ∧
        (handleRequest st now nowEnd env).1.success = true ∧
        (handleRequest st now nowEnd env).1.cached = none) := by
  intro st now nowEnd env
  by_cases hb : st.isProcessing = true
  · have hst : (handleRequest st now nowEnd env).2.1 = st :=
      handleRequest_busy_state hb
    refine ⟨fun _ => by rw [hst] ; exact ⟨rfl, rfl⟩, fun hch => ?_⟩
    rw [hst] at hch
    rcases hch with h | h <;> exact absurd rfl h
  · have hidle : st.isProcessing = false := by simpa using hb
    rcases hacq : acqBody env with msg | ⟨v, method⟩
    · rw [handleRequest_err hidle hacq]
      refine ⟨fun _ => ⟨rfl, rfl⟩, fun hch => ?_⟩
      rcases hch with h | h <;> exact absurd rfl h
    · rw [handleRequest_ok hidle hacq]
      exact ⟨fun hs => by simp at hs, fun _ => ⟨rfl, rfl, rfl⟩⟩

/-- C7 (witness): a blocked acquisition leaves the cache of a state that
holds "87.45" untouched, and a fresh success on the same state changes
it and indeed returns the 200/`cached`-absent response. -/
theorem cache_unchanged_witness :
    (handleRequest { busySt with isProcessing := false } 0 1000
        blockedEnv).1.success = false ∧
    ((handleRequest { busySt with isProcessing := false } 0 1000
        blockedEnv).2.1.lastPrice =
      ({ busySt with isProcessing := false } : ServerState).lastPrice ∧
     (handleRequest { busySt with isProcessing := false } 0 1000
        blockedEnv).2.1.lastPriceTime =
      ({ busySt with isProcessing := false } : ServerState).lastPriceTime) := by
  have hacq : acqBody blockedEnv = .error (blockedUrlMsg blockedEnv.pageUrl) := by
    with_unfolding_all rfl
  refine ⟨?_, (cache_unchanged_unless_success
    { busySt with isProcessing := false } 0 1000 blockedEnv).1 ?_⟩ <;>
  · rw [handleRequest_err rfl hacq]

/-! ## Claims C5 and C6 -/

theorem acqBody_of_clean {env : AcqEnv}
    (h1 : env.launchThrows = false) (h2 : env.newContextThrows = false)
    (h3 : env.newPageThrows = false)
    (h4 : strIncludes env.pageUrl "exhkqyad" = false)
    (h5 : strIncludes env.pageUrl "servicepipe.ru" = false)
    (h6 : (strIncludes env.pageContent "servicepipe.ru" &&
      decide (env.pageContent.length < 5000)) = false) :
    acqBody env =
      (match runChain env.chain with
        | (some v, method) =>
          if jsGtZero v then .ok (v, method) else .error noQuoteMsg
        | (none, _) => .error noQuoteMsg) := by
  unfold acqBody
  simp [h1, h2, h3, h4, h5, h6]

theorem acqBody_blocked_url {env : AcqEnv}
    (h1 : env.launchThrows = false) (h2 : env.newContextThrows = false)
    (h3 : env.newPageThrows = false)
    (hurl : strIncludes env.pageUrl "exhkqyad" = true ∨
      strIncludes env.pageUrl "servicepipe.ru" = true) :
    acqBody env = .error (blockedUrlMsg env.pageUrl) := by
  unfold acqBody
  rcases hurl with h | h <;> simp [h1, h2, h3, h]

theorem acqBody_blocked_content {env : AcqEnv}
    (h1 : env.launchThrows = false) (h2 : env.newContextThrows = false)
    (h3 : env.newPageThrows = false)
    (h4 : strIncludes env.pageUrl "exhkqyad" = false)
    (h5 : strIncludes env.pageUrl "servicepipe.ru" = false)
    (hmark : strIncludes env.pageContent "servicepipe.ru" = true)
    (hshort : env.pageContent.length < 5000) :
    acqBody env = .error blockedContentMsg := by
  unfold acqBody
  simp [h1, h2, h3, h4, h5, hmark, hshort]

/-- C5: the strategies are evaluated strictly in priority order — the
in-page global state first, the recent-trades table only if it produced
nothing usable, the free-text form only if both produced nothing — the
first usable (positive) price wins and the `method` variable names
exactly the strategy that produced it; and when all three yield nothing,
the admitted request fails with the no-quote-found 500 error. -/
theorem extraction_priority_order :
    (∀ e : ChainEnv, e.gonThrows = false → e.tableThrows = false →
      e.textThrows = false →
      (∀ v, gonEval e.gonLast = some v →
        runChain e = (some v, some methodGon)) ∧
      (gonEval e.gonLast = none →
        (∀ t, tableEval e.containers = some t →
          runChain e = (some (.num t), some methodTable)) ∧
        (tableEval e.containers = none →
          (∀ x, textEval e.bodyText = some x →
            runChain e = (some (.num x), some methodText)) ∧
          (textEval e.bodyText = none → runChain e = (none, none))))) ∧
    (∀ (st : ServerState) (now nowEnd : ℤ) (env : AcqEnv),
      st.isProcessing = false → env.launchThrows = false →
      env.newContextThrows = false → env.newPageThrows = false →
      strIncludes env.pageUrl "exhkqyad" = false →
      strIncludes env.pageUrl "servicepipe.ru" = false →
      (strIncludes env.pageContent "servicepipe.ru" &&
        decide (env.pageContent.length < 5000)) = false →
      runChain env.chain = (none, none) →
      (handleRequest st now nowEnd env).1 =
        { status := 500, success := false, price := none, updated := none,
          method := none, cached := none, error := some noQuoteMsg }) := by
  constructor
  · intro e hg ht hx
    refine ⟨fun v hv => runChain_gon hg hv, fun hgn => ⟨?_, fun htn => ⟨?_, ?_⟩⟩⟩
    · intro t hte
      exact runChain_table (Or.inr hgn) ht hte
    · intro x hxe
      exact runChain_text (Or.inr hgn) (Or.inr htn) hx hxe
    · intro hxn
      exact runChain_none (Or.inr hgn) (Or.inr htn) (Or.inr hxn)
  · intro st now nowEnd env hidle h1 h2 h3 h4 h5 h6 hchain
    have hacq : acqBody env = .error noQuoteMsg := by
      rw [acqBody_of_clean h1 h2 h3 h4 h5 h6, hchain]
    rw [handleRequest_err hidle hacq]

/-- C5 (witness): a page exposing the price only in free-text form yields
the tertiary tag, and a page exposing nothing yields the
no-quote-found 500 response. -/
theorem extraction_priority_order_witness :
    (textChain.gonThrows = false ∧ textChain.tableThrows = false ∧
      textChain.textThrows = false ∧ gonEval textChain.gonLast = none ∧
      tableEval textChain.containers = none ∧
      textEval textChain.bodyText = some (187 / 2) ∧
      runChain textChain = (some (.num (187 / 2)), some methodText)) ∧
    (runChain emptyChain = (none, none) ∧
      (handleRequest initState 0 1000 nothingEnv).1 =
        { status := 500, success := false, price := none, updated := none,
          method := none, cached := none, error := some noQuoteMsg }) := by
  have htext : textEval textChain.bodyText = some (187 / 2) := by
    with_unfolding_all rfl
  refine ⟨⟨rfl, rfl, rfl, rfl, rfl, htext, ?_⟩, ⟨by with_unfolding_all rfl, ?_⟩⟩
  · exact ((((extraction_priority_order.1 textChain rfl rfl rfl).2 rfl).2
      rfl).1 (187 / 2) htext)
  · exact extraction_priority_order.2 initState 0 1000 nothingEnv rfl rfl rfl
      rfl (by decide) (by decide) (by decide) (by with_unfolding_all rfl)

/-- C6: when an admitted acquisition's lifecycle calls succeed, the block
detection runs before any extraction: a resolved URL containing a known
mitigation redirect domain fails the request with the redirect blocking
message, and otherwise a page content containing the mitigation vendor
marker while shorter than 5000 characters fails it with the marker
blocking message; in both cases the response is entirely independent of
what the extraction strategies would have observed, and the previous
cache survives untouched. -/
theorem block_detection_before_extraction :
    ∀ (st : ServerState) (now nowEnd : ℤ) (env : AcqEnv),
      st.isProcessing = false → env.launchThrows = false →
      env.newContextThrows = false → env.newPageThrows = false →
      ((strIncludes env.pageUrl "exhkqyad" = true ∨
        strIncludes env.pageUrl "servicepipe.ru" = true) →
        (handleRequest st now nowEnd env).1 =
          { status := 500, success := false, price := none, updated := none,
            method := none, cached := none,
            error := some (blockedUrlMsg env.pageUrl) } ∧
        (∀ ch : ChainEnv,
          handleRequest st now nowEnd { env with chain := ch } =
            handleRequest st now nowEnd env) ∧
        (handleRequest st now nowEnd env).2.1.lastPrice = st.lastPrice ∧
        (handleRequest st now nowEnd env).2.1.lastPriceTime =
          st.lastPriceTime) ∧
      (strIncludes env.pageUrl "exhkqyad" = false →
        strIncludes env.pageUrl "servicepipe.ru" = false →
        strIncludes env.pageContent "servicepipe.ru" = true →
        env.pageContent.length < 5000 →
        (handleRequest st now nowEnd env).1 =
          { status := 500, success := false, price := none, updated := none,
            method := none, cached := none,
            error := some blockedContentMsg } ∧
        (∀ ch : ChainEnv,
          handleRequest st now nowEnd { env with chain := ch } =
            handleRequest st now nowEnd env) ∧
        (handleRequest st now nowEnd env).2.1.lastPrice = st.lastPrice ∧
        (handleRequest st now nowEnd env).2.1.lastPriceTime =
          st.lastPriceTime) := by
  intro st now nowEnd env hidle h1 h2 h3
  constructor
  · intro hurl
    have hacq : acqBody env = .error (blockedUrlMsg env.pageUrl) :=
      acqBody_blocked_url h1 h2 h3 hurl
    have hacq2 : ∀ ch : ChainEnv,
        acqBody { env with chain := ch } =
          .error (blockedUrlMsg env.pageUrl) :=
      fun ch => @acqBody_blocked_url { env with chain := ch }
        h1 h2 h3 hurl
    rw [handleRequest_err hidle hacq]
    refine ⟨rfl, fun ch => ?_, rfl, rfl⟩
    rw [handleRequest_err hidle (hacq2 ch)]
    rfl
  · intro h4 h5 hmark hshort
    have hacq : acqBody env = .error blockedContentMsg :=
      acqBody_blocked_content h1 h2 h3 h4 h5 hmark hshort
    have hacq2 : ∀ ch : ChainEnv,
        acqBody { env with chain := ch } = .error blockedContentMsg :=
      fun ch => @acqBody_blocked_content { env with chain := ch }
        h1 h2 h3 h4 h5 hmark hshort
    rw [handleRequest_err hidle hacq]
    refine ⟨rfl, fun ch => ?_, rfl, rfl⟩
    rw [handleRequest_err hidle (hacq2 ch)]
    rfl

/-- C6 (witness): instantiation at a redirect to the mitigation domain
(no extraction observations needed) and at a short marker page. -/
theorem block_detection_witness :
    initState.isProcessing = false ∧
    strIncludes blockedEnv.pageUrl "exhkqyad" = true ∧
    (handleRequest initState 0 1000 blockedEnv).1 =
      { status := 500, success := false, price := none, updated := none,
        method := none, cached := none,
        error := some (blockedUrlMsg blockedEnv.pageUrl) } ∧
    (handleRequest initState 0 1000
        { okEnv with pageContent := "checking servicepipe.ru" }).1 =
      { status := 500, success := false, price := none, updated := none,
        method := none, cached := none,
        error := some blockedContentMsg } := by
  refine ⟨rfl, by decide, ?_, ?_⟩
  · exact ((block_detection_before_extraction initState 0 1000 blockedEnv rfl
      rfl rfl rfl).1 (Or.inl (by decide))).1
  · exact ((block_detection_before_extraction initState 0 1000
      { okEnv with pageContent := "checking servicepipe.ru" } rfl rfl rfl
      rfl).2 (by decide) (by decide) (by decide) (by decide)).1

/-! ## Claim C9 -/

/-- C9: the browser-session release (the `finally` block) runs on every
admitted path, success or failure: the context close is attempted iff a
context was created, and the browser close iff a browser was launched —
independently of whether the context close itself fails — and close
failures are caught: they change neither the response nor the resulting
server state. -/
theorem release_on_every_exit_path :
    ∀ (st : ServerState) (now nowEnd : ℤ) (env : AcqEnv),
      st.isProcessing = false →
      ((handleRequest st now nowEnd env).2.2.contextCloseTried =
          contextOpened env ∧
        (handleRequest st now nowEnd env).2.2.browserCloseTried =
          browserOpened env) ∧
      (∀ b1 b2 : Bool,
        (handleRequest st now nowEnd
            { env with contextCloseThrows := b1,
                       browserCloseThrows := b2 }).1 =
          (handleRequest st now nowEnd env).1 ∧
        (handleRequest st now nowEnd
            { env with contextCloseThrows := b1,
                       browserCloseThrows := b2 }).2.1 =
          (handleRequest st now nowEnd env).2.1 ∧
        (handleRequest st now nowEnd
            { env with contextCloseThrows := b1,
                       browserCloseThrows := b2 }).2.2.browserCloseTried =
          browserOpened env) := by
  intro st now nowEnd env hidle
  rcases hacq : acqBody env with msg | ⟨v, method⟩
  · have hacqM : ∀ b1 b2 : Bool,
        acqBody { env with contextCloseThrows := b1,
                           browserCloseThrows := b2 } = .error msg :=
      fun _ _ => hacq
    rw [handleRequest_err hidle hacq]
    refine ⟨⟨rfl, rfl⟩, fun b1 b2 => ?_⟩
    rw [handleRequest_err hidle (hacqM b1 b2)]
    exact ⟨rfl, rfl, rfl⟩
  · have hacqM : ∀ b1 b2 : Bool,
        acqBody { env with contextCloseThrows := b1,
                           browserCloseThrows := b2 } = .ok (v, method) :=
      fun _ _ => hacq
    rw [handleRequest_ok hidle hacq]
    refine ⟨⟨rfl, rfl⟩, fun b1 b2 => ?_⟩
    rw [handleRequest_ok hidle (hacqM b1 b2)]
    exact ⟨rfl, rfl, rfl⟩

/-- C9 (witness): instantiation at a successful acquisition whose
context close and browser close both fail. -/
theorem release_witness :
    initState.isProcessing = false ∧
    (handleRequest initState 0 1000 okEnv).2.2.contextCloseTried =
      contextOpened okEnv ∧
    (handleRequest initState 0 1000 okEnv).2.2.browserCloseTried =
      browserOpened okEnv ∧
    (handleRequest initState 0 1000
        { okEnv with contextCloseThrows := true,
                     browserCloseThrows := true }).1 =
      (handleRequest initState 0 1000 okEnv).1 ∧
    (handleRequest initState 0 1000
        { okEnv with contextCloseThrows := true,
                     browserCloseThrows := true }).2.2.browserCloseTried =
      browserOpened okEnv := by
  have h := release_on_every_exit_path initState 0 1000 okEnv rfl
  exact ⟨rfl, h.1.1, h.1.2, (h.2 true true).1, (h.2 true true).2.2⟩

/-! ## Claim C1 -/

/-- C1 (counterexample): mutual exclusion fails under watchdog
interleavings.  A caller is admitted at time 0 and its watchdog is armed
for time 90000; the acquisition is still running when the watchdog fires
and force-clears the guard; a second caller arriving at 90001 is then
admitted while the first acquisition is still in flight — two browser
acquisitions run at the same time (`inFlight = 2`). -/
theorem concurrent_acquisitions_possible :
    ¬ (∀ (tr : List SysEvent) (s : SysState),
        sysRun sysInit tr = some s → s.inFlight ≤ 1) := by
  intro hmutex
  have h := hmutex
    [.arrive 0, .watchdogFire 90000, .arrive 90001]
    { isProcessing := true, timer := some 180001, inFlight := 2,
      lastPrice := none, lastPriceTime := 0 }
    (by with_unfolding_all rfl)
  simp at h

theorem sysStep_arrive_busy {s : SysState} {now : ℤ} {s' : SysState}
    {obs : SysObs} (hbusy : s.isProcessing = true)
    (h : sysStep s (.arrive now) = some (s', obs)) :
    s' = s ∧ obs ≠ .admitted ∧ (obs = .busy ∨ ∃ p, obs = .cacheHit p) := by
  unfold sysStep at h
  rw [hbusy] at h
  simp only [if_true] at h
  rcases hl : s.lastPrice with _ | p <;> rw [hl] at h <;> simp only at h
  · simp only [Option.some.injEq, Prod.mk.injEq] at h
    exact ⟨h.1.symm, by simp [← h.2], Or.inl h.2.symm⟩
  · split_ifs at h <;>
      simp only [Option.some.injEq, Prod.mk.injEq] at h
    · exact ⟨h.1.symm, by simp [← h.2], Or.inr ⟨p, h.2.symm⟩⟩
    · exact ⟨h.1.symm, by simp [← h.2], Or.inl h.2.symm⟩

theorem sysStep_no_watchdog_inv {s : SysState} {e : SysEvent}
    {s' : SysState} {obs : SysObs} (hinv : SysInv s)
    (hw : isWatchdogEvent e = false)
    (h : sysStep s e = some (s', obs)) : SysInv s' := by
  obtain ⟨hle, hproc⟩ := hinv
  cases e with
  | arrive now =>
    by_cases hb : s.isProcessing = true
    · obtain ⟨hs, _, _⟩ := sysStep_arrive_busy hb h
      rw [hs]
      exact ⟨hle, hproc⟩
    · have hb' : s.isProcessing = false := by simpa using hb
      have hifz : s.inFlight = 0 := by
        rw [hb'] at hproc
        have hne : ¬ (s.inFlight = 1) := by
          intro hx
          rw [hx] at hproc
          simp at hproc
        omega
      unfold sysStep at h
      rw [hb'] at h
      simp only [Bool.false_eq_true, if_false, Option.some.injEq,
        Prod.mk.injEq] at h
      rw [← h.1]
      exact ⟨by simp [hifz], by simp [hifz]⟩
  | watchdogFire now => simp [isWatchdogEvent] at hw
  | finish success price now =>
    unfold sysStep at h
    rcases hn : s.inFlight with _ | n <;> rw [hn] at h
    · simp at h
    · have hn0 : n = 0 := by omega
      simp only [Option.some.injEq, Prod.mk.injEq] at h
      rw [← h.1]
      subst hn0
      split_ifs <;> exact ⟨by simp, by simp⟩

theorem sysRun_no_watchdog_inv {tr : List SysEvent} {s0 s : SysState}
    (hinv : SysInv s0)
    (hw : tr.all (fun e => !isWatchdogEvent e) = true)
    (h : sysRun s0 tr = some s) : SysInv s := by
  induction tr generalizing s0 with
  | nil =>
    unfold sysRun at h
    obtain rfl : s0 = s := by simpa using h
    exact hinv
  | cons e es ih =>
    simp only [List.all_cons, Bool.and_eq_true, Bool.not_eq_true'] at hw
    unfold sysRun at h
    rcases hstep : sysStep s0 e with _ | ⟨s1, obs⟩ <;> rw [hstep] at h
    · simp at h
    · exact ih (sysStep_no_watchdog_inv ⟨hinv.1, hinv.2⟩ hw.1 hstep) hw.2 h

/-- C1 (amended): while the guard flag is set, an arriving caller is
never admitted — the state is untouched and the caller observes a cache
hit or Busy — and along every interleaving in which the watchdog never
fires, at most one browser acquisition is ever in flight.  (Under
watchdog firings the full mutual-exclusion claim fails, see the
counterexample: the forced reset can admit a second caller while the
first acquisition still runs.) -/
theorem guard_exclusion_watchdog_free :
    (∀ (s : SysState) (now : ℤ) (s' : SysState) (obs : SysObs),
      s.isProcessing = true →
      sysStep s (.arrive now) = some (s', obs) →
      s' = s ∧ obs ≠ .admitted ∧ (obs = .busy ∨ ∃ p, obs = .cacheHit p)) ∧
    (∀ (tr : List SysEvent) (s : SysState),
      tr.all (fun e => !isWatchdogEvent e) = true →
      sysRun sysInit tr = some s → s.inFlight ≤ 1) :=
  ⟨fun _ _ _ _ hb h => sysStep_arrive_busy hb h,
   fun _ s hw h =>
     (sysRun_no_watchdog_inv ⟨by decide, by decide⟩ hw h).1⟩

/-- C1 (witness for the amended theorem): a caller arriving while
`busySys` is in flight observes the cache hit and changes nothing, and a
watchdog-free trace (admit, then finish) never exceeds one in-flight
acquisition. -/
theorem guard_exclusion_witness :
    busySys.isProcessing = true ∧
    sysStep busySys (.arrive 5000) = some (busySys, .cacheHit "87.45") ∧
    (busySys = busySys ∧ SysObs.cacheHit "87.45" ≠ .admitted ∧
      (SysObs.cacheHit "87.45" = .busy ∨
        ∃ p, SysObs.cacheHit "87.45" = .cacheHit p)) ∧
    [SysEvent.arrive 0, SysEvent.finish true "87.45" 1000].all
      (fun e => !isWatchdogEvent e) = true ∧
    sysRun sysInit [SysEvent.arrive 0, SysEvent.finish true "87.45" 1000] =
      some doneSys ∧
    doneSys.inFlight ≤ 1 := by
  have hstep : sysStep busySys (.arrive 5000) =
      some (busySys, .cacheHit "87.45") := by
    with_unfolding_all rfl
  have hrun : sysRun sysInit
      [SysEvent.arrive 0, SysEvent.finish true "87.45" 1000] =
      some doneSys := by
    with_unfolding_all rfl
  exact ⟨rfl, hstep,
    guard_exclusion_watchdog_free.1 busySys 5000 busySys _ rfl hstep,
    by decide, hrun,
    guard_exclusion_watchdog_free.2 _ doneSys (by decide) hrun⟩

/-! ## Claim C8 -/

/-- C8: if the guard is still held when the armed watchdog's deadline
arrives (no `finally` has cleared the timer), the watchdog event at that
instant force-resets the guard to idle, after which an arriving caller is
admitted instead of rejected; a watchdog firing at an idle guard only
consumes the timer — the guard and the rest of the state are untouched
(the `if (isProcessing)` check of lines 84-87 makes the reset a no-op). -/
theorem watchdog_liveness :
    ∀ (s : SysState) (t : ℤ), s.timer = some t →
      (s.isProcessing = true →
        sysStep s (.watchdogFire t) =
          some ({ s with isProcessing := false, timer := none },
            .watchdogReset) ∧
        (∀ now : ℤ, ∃ s' : SysState,
          sysStep { s with isProcessing := false, timer := none }
              (.arrive now) = some (s', .admitted) ∧
          s'.inFlight = s.inFlight + 1)) ∧
      (s.isProcessing = false →
        sysStep s (.watchdogFire t) =
          some ({ s with timer := none }, .watchdogNoop)) := by
  intro s t ht
  constructor
  · intro hb
    constructor
    · unfold sysStep
      rw [ht]
      simp [hb]
    · intro now
      refine ⟨{ s with isProcessing := true,
                       timer := some (now + WATCHDOG_MS),
                       inFlight := s.inFlight + 1 }, ?_, rfl⟩
      unfold sysStep
      simp
  · intro hb
    unfold sysStep
    rw [ht]
    simp [hb]

/-- C8 (witness): the watchdog fires at deadline 90000 on the in-flight
state `busySys`, resets the guard, and a caller arriving afterwards is
admitted; firing on the same state with an idle guard only consumes the
timer. -/
theorem watchdog_liveness_witness :
    busySys.timer = some 90000 ∧ busySys.isProcessing = true ∧
    sysStep busySys (.watchdogFire 90000) =
      some ({ busySys with isProcessing := false, timer := none },
        .watchdogReset) ∧
    (∃ s' : SysState,
      sysStep { busySys with isProcessing := false, timer := none }
          (.arrive 100000) = some (s', .admitted) ∧
      s'.inFlight = busySys.inFlight + 1) ∧
    ({ busySys with isProcessing := false } : SysState).isProcessing =
      false ∧
    sysStep { busySys with isProcessing := false } (.watchdogFire 90000) =
      some ({ busySys with isProcessing := false, timer := none },
        .watchdogNoop) := by
  have h1 := (watchdog_liveness busySys 90000 rfl).1 rfl
  have h2 := (watchdog_liveness { busySys with isProcessing := false }
    90000 rfl).2 rfl
  exact ⟨rfl, rfl, h1.1, h1.2 100000, rfl, h2⟩

/-! ## Claim C2 -/

/-- C2 (counterexample): the fresh-success JSON (lines 351-356) carries
no `cached` key and the cache-hit JSON (lines 66-72) carries no `method`
key, refuting the claimed shape (a `method` string AND a `cached`
boolean present on every successful result, on both paths). -/
theorem success_shape_counterexample :
    (handleRequest initState 0 1000 okEnv).1.success = true ∧
    (handleRequest initState 0 1000 okEnv).1.cached = none ∧
    (handleRequest busySt 5000 6000 okEnv).1.success = true ∧
    (handleRequest busySt 5000 6000 okEnv).1.method = none := by
  have hacq : acqBody okEnv = .ok (JSNum.num (8745 / 100), some methodGon) := by
    with_unfolding_all rfl
  rw [handleRequest_ok rfl hacq,
    @handleRequest_hit busySt 5000 6000 okEnv "87.45" rfl rfl (by decide)
      (by decide)]
  exact ⟨rfl, rfl, rfl, rfl⟩

/-- C2 (amended): every successful response has one of two shapes.  A
fresh acquisition success carries `price` — the `toFixed(2)` rendering of
the extracted value: a string with exactly two fractional digits whenever
the value is finite, with positive numeric value whenever the value is at
least 1/200 — `updated` (the ISO-8601 rendering of the completion time)
and a `method` string, but no `cached` key.  A cache-hit success carries
the stored `price` string, `updated` (the ISO-8601 rendering of the
stored observation time) and `cached = true`, but no `method` key.  The
cache only ever stores renderings of successful extractions, so every
served cache string is a two-decimal string unless it is `"Infinity"`. -/
theorem success_result_shape :
    (∀ (st : ServerState) (now nowEnd : ℤ) (env : AcqEnv) (v : JSNum)
        (method : Option String),
      st.isProcessing = false → acqBody env = .ok (v, method) →
      (handleRequest st now nowEnd env).1 =
        { status := 200, success := true, price := some (toFixed2 v),
          updated := some (toISOString nowEnd),
          method := some (method.getD "unknown"), cached := none,
          error := none } ∧
      (∀ q : ℚ, v = .num q →
        twoDecStr (toFixed2 v) = true ∧
        (1 / 200 ≤ q → jsGtZero (parseFloat (toFixed2 v)) = true))) ∧
    (∀ (st : ServerState) (now nowEnd : ℤ) (env : AcqEnv) (p : String),
      st.isProcessing = true → st.lastPrice = some p → p ≠ "" →
      now - st.lastPriceTime < CACHE_TIME →
      (handleRequest st now nowEnd env).1 =
        { status := 200, success := true, price := some p,
          updated := some (toISOString st.lastPriceTime), method := none,
          cached := some true, error := none }) ∧
    (∀ (st : ServerState) (now nowEnd : ℤ) (env : AcqEnv),
      (∀ p, st.lastPrice = some p → twoDecStr p = true ∨ p = "Infinity") →
      ∀ p, (handleRequest st now nowEnd env).2.1.lastPrice = some p →
        twoDecStr p = true ∨ p = "Infinity") := by
  refine ⟨?_, ?_, ?_⟩
  · intro st now nowEnd env v method hidle hok
    refine ⟨by rw [handleRequest_ok hidle hok], ?_⟩
    rintro q rfl
    have hpos : jsGtZero (JSNum.num q) = true :=
      (acqBody_ok_inv hok).2.2.2.2.2.2
    have hq : 0 < q := by simpa [jsGtZero] using hpos
    exact ⟨twoDecStr_toFixed2 hq, fun hge => parseFloat_toFixed2_pos hge⟩
  · intro st now nowEnd env p hbusy hp hne hfresh
    rw [handleRequest_hit hbusy hp hne hfresh]
  · intro st now nowEnd env hwf p hp
    by_cases hb : st.isProcessing = true
    · rw [handleRequest_busy_state hb] at hp
      exact hwf p hp
    · have hidle : st.isProcessing = false := by simpa using hb
      rcases hacq : acqBody env with msg | ⟨v, method⟩
      · rw [handleRequest_err hidle hacq] at hp
        exact hwf p hp
      · rw [handleRequest_ok hidle hacq] at hp
        obtain rfl : toFixed2 v = p := by simpa using hp
        have hpos : jsGtZero v = true := (acqBody_ok_inv hacq).2.2.2.2.2.2
        cases v with
        | nan => simp [jsGtZero] at hpos
        | negInf => simp [jsGtZero] at hpos
        | posInf => exact Or.inr rfl
        | num q =>
          have hq : 0 < q := by simpa [jsGtZero] using hpos
          exact Or.inl (twoDecStr_toFixed2 hq)

/-- C2 (witness for the amended theorem): fresh-path instantiation at
`okEnv` (extracted value 87.45). -/
theorem success_result_shape_witness :
    initState.isProcessing = false ∧
    acqBody okEnv = .ok (JSNum.num (8745 / 100), some methodGon) ∧
    (handleRequest initState 0 1000 okEnv).1 =
      { status := 200, success := true,
        price := some (toFixed2 (JSNum.num (8745 / 100))),
        updated := some (toISOString 1000),
        method := some ((some methodGon).getD "unknown"), cached := none,
        error := none } ∧
    twoDecStr (toFixed2 (JSNum.num (8745 / 100))) = true := by
  have hacq : acqBody okEnv = .ok (JSNum.num (8745 / 100), some methodGon) := by
    with_unfolding_all rfl
  have h := success_result_shape.1 initState 0 1000 okEnv
    (JSNum.num (8745 / 100)) (some methodGon) rfl hacq
  exact ⟨rfl, hacq, h.1, (h.2 (8745 / 100) rfl).1⟩

end GrinexServer
